import Mathlib

/-!
Verification of the blackroad-websocket-manager connection tracker
(`src/main_module.py`) against its specification.

The embedding models the SQLite store as explicit lists of rows, the
in-memory `ConnectionPool._pool` dict as an insertion-ordered association
list, and wall-clock time as an explicit `now : Int` parameter threaded
into every operation that calls `datetime.utcnow()` / SQL `datetime('now')`.
Timestamp strings are modelled by `TimeStr`: `valid t` stands for a
well-formed ISO-8601 string denoting instant `t`, `malformed s` for a
string `datetime.fromisoformat` rejects.  UUIDs and AUTOINCREMENT row ids
are modelled by fresh-counter fields of the state.
-/

set_option autoImplicit false

namespace WsManager

/-- Model of a timestamp string: either a well-formed ISO-8601 string
denoting time `t`, or a malformed string that fails to parse. -/
inductive TimeStr where
  | valid : Int → TimeStr
  | malformed : String → TimeStr
  deriving DecidableEq, Repr

/-- Model of `datetime.fromisoformat`: succeeds exactly on well-formed
timestamp strings. -/
def parseTS : TimeStr → Option Int
  | .valid t => some t
  | .malformed _ => none

/-- The `Connection` dataclass (in-memory record). `metadata` is kept as
its opaque serialized text form. -/
structure Connection where
  ws_id : String
  agent : String
  metadata : String
  connected_at : TimeStr
  last_heartbeat : TimeStr
  status : String
  message_count : Nat
  db_id : Option Nat
  deriving DecidableEq, Repr

/-- The `Message` dataclass. `msg_id` (a UUID in the code) is modelled as
a fresh natural number drawn from a counter. -/
structure Message where
  content : String
  sender_id : Option String
  recipient_id : Option String
  msg_type : String
  msg_id : Nat
  sent_at : Int
  db_id : Option Nat
  deriving DecidableEq, Repr

/-- A row of the `connections` table. -/
structure ConnRow where
  id : Nat
  ws_id : String
  agent : String
  metadata : String
  connected_at : TimeStr
  last_heartbeat : TimeStr
  status : String
  message_count : Nat
  disconnected_at : Option Int
  deriving DecidableEq, Repr

/-- A row of the `messages` table. -/
structure MsgRow where
  id : Nat
  msg_id : Nat
  msg_type : String
  sender_id : Option String
  recipient_id : Option String
  content : String
  sent_at : Int
  delivered : Bool
  deriving DecidableEq, Repr

/-- A row of the `heartbeat_log` table. -/
structure HBRow where
  ws_id : String
  ts : Int
  latency_ms : Option Int
  deriving DecidableEq, Repr

/-- The in-memory dict `ConnectionPool._pool`, as an insertion-ordered
association list with (by construction) unique keys. -/
abbrev Pool := List (String × Connection)

/-- Python `dict.get`: first (unique) binding of the key. -/
def dictGet (k : String) : Pool → Option Connection
  | [] => none
  | p :: ps => if p.1 = k then some p.2 else dictGet k ps

/-- Python `d[k] = v`: replace in place if the key is present, else append. -/
def dictInsert (k : String) (v : Connection) : Pool → Pool
  | [] => [(k, v)]
  | p :: ps => if p.1 = k then (k, v) :: ps else p :: dictInsert k v ps

/-- Python `del d[k]` (on a unique-key dict): drop the binding. -/
def dictErase (k : String) : Pool → Pool
  | [] => []
  | p :: ps => if p.1 = k then ps else p :: dictErase k ps

/-- In-place mutation of the value stored under `k` (models Python's
`d[k].field = ...` on the shared object). -/
def dictUpdate (k : String) (f : Connection → Connection) : Pool → Pool
  | [] => []
  | p :: ps => if p.1 = k then (p.1, f p.2) :: ps else p :: dictUpdate k f ps

/-- Whole-system state: the three SQLite tables, the in-memory pool, and
the fresh-id counters (AUTOINCREMENT rowids and UUIDs). -/
structure State where
  connRows : List ConnRow
  msgRows : List MsgRow
  hbRows : List HBRow
  pool : Pool
  nextConnId : Nat
  nextMsgRowId : Nat
  nextMsgId : Nat
  deriving DecidableEq, Repr

/-- Freshly initialized empty store and pool. -/
def initState : State :=
  { connRows := [], msgRows := [], hbRows := [], pool := []
  , nextConnId := 1, nextMsgRowId := 1, nextMsgId := 1 }

namespace ConnectionPool

/-- `ConnectionPool.add`.  The SQL `INSERT OR REPLACE` deletes any row
conflicting on the UNIQUE `ws_id` column and inserts a fresh row with a
new AUTOINCREMENT id; `disconnected_at` is not in the column list so it
defaults to NULL.  `connection.db_id` is set to `lastrowid` and the
connection is stored in the dict under its `ws_id`. -/
def add (c : Connection) (s : State) : Connection × State :=
  let row : ConnRow :=
    { id := s.nextConnId, ws_id := c.ws_id, agent := c.agent
    , metadata := c.metadata, connected_at := c.connected_at
    , last_heartbeat := c.last_heartbeat, status := c.status
    , message_count := c.message_count, disconnected_at := none }
  let c' := { c with db_id := some s.nextConnId }
  (c', { s with
          connRows := (s.connRows.filter (fun r => r.ws_id ≠ c.ws_id)) ++ [row]
        , nextConnId := s.nextConnId + 1
        , pool := dictInsert c.ws_id c' s.pool })

/-- `ConnectionPool.remove`: absent id returns `false` with no effect;
otherwise the store row is marked disconnected with a disconnect
timestamp and the dict entry is deleted. -/
def remove (ws_id : String) (now : Int) (s : State) : Bool × State :=
  match dictGet ws_id s.pool with
  | none => (false, s)
  | some _ =>
      (true, { s with
                connRows := s.connRows.map (fun r =>
                  if r.ws_id = ws_id then
                    { r with status := "disconnected", disconnected_at := some now }
                  else r)
              , pool := dictErase ws_id s.pool })

/-- `ConnectionPool.get`: pure in-memory lookup. -/
def get (ws_id : String) (s : State) : Option Connection :=
  dictGet ws_id s.pool

/-- `ConnectionPool.get_all`: the dict's values in insertion order. -/
def get_all (s : State) : List Connection :=
  s.pool.map Prod.snd

/-- `ConnectionPool.count`. -/
def count (s : State) : Nat :=
  s.pool.length

/-- `ConnectionPool.update_heartbeat`: absent id returns `false`;
otherwise sets `last_heartbeat` to now in memory and in the store and
appends a heartbeat-log row. -/
def update_heartbeat (ws_id : String) (latency_ms : Option Int) (now : Int)
    (s : State) : Bool × State :=
  match dictGet ws_id s.pool with
  | none => (false, s)
  | some _ =>
      (true, { s with
                pool := dictUpdate ws_id
                  (fun c => { c with last_heartbeat := .valid now }) s.pool
              , connRows := s.connRows.map (fun r =>
                  if r.ws_id = ws_id then { r with last_heartbeat := .valid now }
                  else r)
              , hbRows := s.hbRows ++ [⟨ws_id, now, latency_ms⟩] })

/-- `ConnectionPool.increment_message_count`: no-op if absent; otherwise
bumps the counter in memory and issues a relative `+1` update in the
store. -/
def increment_message_count (ws_id : String) (s : State) : State :=
  match dictGet ws_id s.pool with
  | none => s
  | some _ =>
      { s with
        pool := dictUpdate ws_id
          (fun c => { c with message_count := c.message_count + 1 }) s.pool
      , connRows := s.connRows.map (fun r =>
          if r.ws_id = ws_id then { r with message_count := r.message_count + 1 }
          else r) }

end ConnectionPool

/-- `add_connection`: builds a fresh active `Connection` (timestamps =
now, counter 0, no db id yet) and upserts it. -/
def add_connection (ws_id agent metadata : String) (now : Int) (s : State) :
    Connection × State :=
  ConnectionPool.add
    { ws_id := ws_id, agent := agent, metadata := metadata
    , connected_at := .valid now, last_heartbeat := .valid now
    , status := "active", message_count := 0, db_id := none } s

/-- `remove_connection`. -/
def remove_connection (ws_id : String) (now : Int) (s : State) : Bool × State :=
  ConnectionPool.remove ws_id now s

/-- The per-target body of `broadcast`: create a `Message` with
`recipient_id` = the target's id, insert it into `messages` with
`delivered=1` (its `sent_at` defaults to the SQL clock), bump the
target's `message_count`, and record the target id. -/
def broadcastLoop (msg_type : String) (sender_id : Option String)
    (content : String) (now : Int) :
    List Connection → State → List String × State
  | [], s => ([], s)
  | c :: cs, s =>
      let row : MsgRow :=
        { id := s.nextMsgRowId, msg_id := s.nextMsgId, msg_type := msg_type
        , sender_id := sender_id, recipient_id := some c.ws_id
        , content := content, sent_at := now, delivered := true }
      let s1 := { s with
                  msgRows := s.msgRows ++ [row],
                  nextMsgRowId := s.nextMsgRowId + 1,
                  nextMsgId := s.nextMsgId + 1 }
      let s2 := ConnectionPool.increment_message_count c.ws_id s1
      let r := broadcastLoop msg_type sender_id content now cs s2
      (c.ws_id :: r.1, r.2)

/-- The target-set computation of `broadcast`: a snapshot of the whole
pool, optionally narrowed by the filter predicate. -/
def broadcastTargets (filter_fn : Option (Connection → Bool)) (s : State) :
    List Connection :=
  match filter_fn with
  | none => ConnectionPool.get_all s
  | some f => (ConnectionPool.get_all s).filter f

/-- `broadcast`: target set is the whole pool, optionally narrowed by the
filter predicate; content is already serialized text here. Returns the
list of targeted `ws_id`s. -/
def broadcast (filter_fn : Option (Connection → Bool)) (content : String)
    (msg_type : String) (sender_id : Option String) (now : Int) (s : State) :
    List String × State :=
  broadcastLoop msg_type sender_id content now (broadcastTargets filter_fn s) s

/-- The staleness test of `heartbeat_check`: parse `last_heartbeat`,
treating a malformed value as `now`, and compare strictly against
`now - timeout`. -/
def staleAt (timeout now : Int) (c : Connection) : Bool :=
  (match parseTS c.last_heartbeat with
   | some t => t
   | none => now) < now - timeout

/-- The sweep of `heartbeat_check` over a snapshot of the pool: stale
connections are evicted via `ConnectionPool.remove` and collected in the
timed-out list, the rest in the active list. -/
def hbLoop (timeout now : Int) :
    List Connection → State → List String × List String × State
  | [], s => ([], [], s)
  | c :: cs, s =>
      if staleAt timeout now c then
        let r := hbLoop timeout now cs (ConnectionPool.remove c.ws_id now s).2
        (r.1, c.ws_id :: r.2.1, r.2.2)
      else
        let r := hbLoop timeout now cs s
        (c.ws_id :: r.1, r.2.1, r.2.2)

/-- `heartbeat_check`: point-in-time sweep; returns the active list, the
timed-out list, and the updated state. -/
def heartbeat_check (timeout : Int) (now : Int) (s : State) :
    List String × List String × State :=
  hbLoop timeout now (ConnectionPool.get_all s) s

/-- `send_message`: absent target returns `none` with no effect;
otherwise one message row is inserted with `delivered=1`, the target's
counter is bumped, and the created `Message` is returned. -/
def send_message (ws_id : String) (content : String) (msg_type : String)
    (sender_id : Option String) (now : Int) (s : State) :
    Option Message × State :=
  match ConnectionPool.get ws_id s with
  | none => (none, s)
  | some _ =>
      let msg : Message :=
        { content := content, sender_id := sender_id
        , recipient_id := some ws_id, msg_type := msg_type
        , msg_id := s.nextMsgId, sent_at := now, db_id := none }
      let row : MsgRow :=
        { id := s.nextMsgRowId, msg_id := s.nextMsgId, msg_type := msg_type
        , sender_id := sender_id, recipient_id := some ws_id
        , content := content, sent_at := now, delivered := true }
      let s1 := { s with
                  msgRows := s.msgRows ++ [row],
                  nextMsgRowId := s.nextMsgRowId + 1,
                  nextMsgId := s.nextMsgId + 1 }
      (some msg, ConnectionPool.increment_message_count ws_id s1)

/-- The `WHERE recipient_id=? OR sender_id=?` predicate of the history
query. -/
def msgInvolves (w : String) (r : MsgRow) : Bool :=
  r.recipient_id == some w || r.sender_id == some w

/-- The `ORDER BY sent_at DESC` ordering on message rows. -/
def msgGE (a b : MsgRow) : Prop :=
  b.sent_at ≤ a.sent_at

instance : DecidableRel msgGE := fun a b => inferInstanceAs (Decidable (b.sent_at ≤ a.sent_at))

instance : IsTotal MsgRow msgGE := ⟨fun a b => le_total b.sent_at a.sent_at⟩

instance : IsTrans MsgRow msgGE := ⟨fun _ _ _ h1 h2 => le_trans h2 h1⟩

/-- Python truthiness of the optional `ws_id` argument: an empty string
is falsy, so `if ws_id:` rejects it. -/
def truthy : Option String → Bool
  | some w => w ≠ ""
  | none => false

/-- `get_message_history`: when `ws_id` is truthy, rows where it is
sender or recipient; otherwise all rows; newest first, capped at
`limit`.  Read-only: returns rows without touching the state. -/
def get_message_history (ws_id : Option String) (limit : Nat) (s : State) :
    List MsgRow :=
  if truthy ws_id then
    (((s.msgRows.filter (msgInvolves (ws_id.getD ""))).insertionSort msgGE).take limit)
  else
    ((s.msgRows.insertionSort msgGE).take limit)

/-- The result record of `connection_stats`. -/
structure Stats where
  active_connections : Nat
  total_ever_connected : Nat
  total_messages : Nat
  agents : List (String × Nat)
  deriving DecidableEq, Repr

/-- The `agents.get(c.agent, 0) + 1` accumulation dict of
`connection_stats`, an insertion-ordered counter map. -/
def bumpAgent (a : String) : List (String × Nat) → List (String × Nat)
  | [] => [(a, 1)]
  | p :: ps => if p.1 = a then (p.1, p.2 + 1) :: ps else p :: bumpAgent a ps

/-- Lookup in the agent-count mapping, defaulting to 0. -/
def agentCount (a : String) : List (String × Nat) → Nat
  | [] => 0
  | p :: ps => if p.1 = a then p.2 else agentCount a ps

/-- `connection_stats`: active count from the pool, lifetime counts from
`COUNT(*)` store aggregates, per-agent counts by scanning the live pool. -/
def connection_stats (s : State) : Stats :=
  { active_connections := ConnectionPool.count s
  , total_ever_connected := s.connRows.length
  , total_messages := s.msgRows.length
  , agents := (ConnectionPool.get_all s).foldl (fun m c => bumpAgent c.agent m) [] }

/-- The message rows a broadcast over a given target snapshot inserts,
starting from given fresh row and message ids (proof companion to
`broadcastLoop`). -/
def mkRows (msg_type : String) (sender_id : Option String) (content : String)
    (now : Int) : List Connection → Nat → Nat → List MsgRow
  | [], _, _ => []
  | c :: cs, rid, mid =>
      { id := rid, msg_id := mid, msg_type := msg_type, sender_id := sender_id
      , recipient_id := some c.ws_id, content := content, sent_at := now
      , delivered := true } :: mkRows msg_type sender_id content now cs (rid + 1) (mid + 1)

/-- A registry operation (the `ConnectionPool` add/remove surface), used
to state persistence of `get` across interleaved registry traffic. -/
inductive RegOp where
  | addOp : Connection → RegOp
  | removeOp : String → Int → RegOp

/-- The `ws_id` a registry operation acts on. -/
def RegOp.target : RegOp → String
  | .addOp c => c.ws_id
  | .removeOp w _ => w

/-- Apply one registry operation to the state. -/
def applyRegOp (op : RegOp) (s : State) : State :=
  match op with
  | .addOp c => (ConnectionPool.add c s).2
  | .removeOp w now => (ConnectionPool.remove w now s).2

/-- Apply a sequence of registry operations left to right. -/
def applyRegOps (ops : List RegOp) (s : State) : State :=
  ops.foldl (fun s op => applyRegOp op s) s

/-- Connect, disconnect, reconnect of the same `ws_id` (concrete runs
used by witnesses). -/
def stateA : State := (add_connection "w" "alice" "m" 0 initState).2

/-- State after disconnecting `"w"` at time 1. -/
def stateB : State := (remove_connection "w" 1 stateA).2

/-- State after reconnecting `"w"` at time 2. -/
def stateC : State := (add_connection "w" "alice" "m" 2 stateB).2

/-- An active connection whose stored heartbeat string is malformed. -/
def connM : Connection :=
  { ws_id := "m", agent := "a", metadata := "", connected_at := .valid 0
  , last_heartbeat := .malformed "zz", status := "active"
  , message_count := 0, db_id := some 1 }

/-- A registry holding only the malformed-heartbeat connection. -/
def stateM : State :=
  { initState with
    pool := [("m", connM)]
  , connRows := [{ id := 1, ws_id := "m", agent := "a", metadata := ""
                 , connected_at := .valid 0, last_heartbeat := .malformed "zz"
                 , status := "active", message_count := 0
                 , disconnected_at := none }]
  , nextConnId := 2 }

/-- Scenario state: connect `"a1"`,`"a2"` as alice and `"b1"` as bob. -/
def stateAgents : State :=
  (add_connection "b1" "bob" ""
    3 (add_connection "a2" "alice" "" 2 (add_connection "a1" "alice" "" 1 initState).2).2).2

/-- Scenario state: connect `"c1"` and send it three messages. -/
def stateHist : State :=
  (send_message "c1" "m3" "data" none 4
    (send_message "c1" "m2" "data" none 3
      (send_message "c1" "m1" "data" none 2
        (add_connection "c1" "carol" "" 1 initState).2).2).2).2

/-- A concrete connection used in registry-trace runs. -/
def cW : Connection :=
  { ws_id := "w", agent := "alice", metadata := "", connected_at := .valid 0
  , last_heartbeat := .valid 0, status := "active", message_count := 0
  , db_id := none }

/-- A concrete connection with a different id. -/
def cOther : Connection := { cW with ws_id := "other" }

/-- An active connection with a heartbeat 100 seconds in the past. -/
def connOld : Connection :=
  { ws_id := "old", agent := "a", metadata := "", connected_at := .valid (-200)
  , last_heartbeat := .valid (-100), status := "active", message_count := 0
  , db_id := some 1 }

/-- An active connection with a current heartbeat. -/
def connLive : Connection :=
  { ws_id := "live", agent := "a", metadata := "", connected_at := .valid 0
  , last_heartbeat := .valid 0, status := "active", message_count := 0
  , db_id := some 2 }

/-- A registry holding one stale and one fresh connection. -/
def stateStale : State :=
  { initState with
    pool := [("old", connOld), ("live", connLive)], nextConnId := 3 }

/-! ### Association-list (Python dict) lemmas -/

theorem dictGet_dictInsert_self (k : String) (v : Connection) (l : Pool) :
    dictGet k (dictInsert k v l) = some v := by
  induction l with
  | nil => simp [dictInsert, dictGet]
  | cons p ps ih =>
      by_cases h : p.1 = k <;> simp [dictInsert, dictGet, h, ih]

theorem dictGet_dictInsert_ne (w k : String) (v : Connection) (l : Pool)
    (hne : w ≠ k) : dictGet w (dictInsert k v l) = dictGet w l := by
  induction l with
  | nil => simp [dictInsert, dictGet, Ne.symm hne]
  | cons p ps ih =>
      by_cases h : p.1 = k
      · simp [dictInsert, dictGet, h, Ne.symm hne]
      · by_cases h2 : p.1 = w <;>
          simp [dictInsert, dictGet, h, h2, hne, Ne.symm hne, ih]

theorem dictGet_eq_none_of_not_mem (k : String) (l : Pool)
    (h : k ∉ l.map Prod.fst) : dictGet k l = none := by
  induction l with
  | nil => rfl
  | cons p ps ih =>
      simp only [List.map_cons, List.mem_cons, not_or] at h
      simp [dictGet, Ne.symm h.1, ih h.2]

theorem dictGet_dictErase_self (k : String) (l : Pool)
    (hnd : (l.map Prod.fst).Nodup) : dictGet k (dictErase k l) = none := by
  induction l with
  | nil => rfl
  | cons p ps ih =>
      simp only [List.map_cons, List.nodup_cons] at hnd
      by_cases h : p.1 = k
      · simpa [dictErase, h] using dictGet_eq_none_of_not_mem k ps (h ▸ hnd.1)
      · simp [dictErase, dictGet, h, ih hnd.2]

theorem dictGet_dictErase_ne (w k : String) (l : Pool) (hne : w ≠ k) :
    dictGet w (dictErase k l) = dictGet w l := by
  induction l with
  | nil => rfl
  | cons p ps ih =>
      by_cases h : p.1 = k
      · simp [dictErase, dictGet, h, Ne.symm hne]
      · by_cases h2 : p.1 = w <;>
          simp [dictErase, dictGet, h, h2, hne, Ne.symm hne, ih]

theorem dictErase_keys_sublist (k : String) (l : Pool) :
    List.Sublist ((dictErase k l).map Prod.fst) (l.map Prod.fst) := by
  induction l with
  | nil => simp [dictErase]
  | cons p ps ih =>
      by_cases h : p.1 = k
      · simp [dictErase, h, List.sublist_cons_self p.1 (ps.map Prod.fst)]
      · simpa [dictErase, h] using List.Sublist.cons₂ p.1 ih

theorem dictErase_keys_nodup (k : String) (l : Pool)
    (hnd : (l.map Prod.fst).Nodup) : ((dictErase k l).map Prod.fst).Nodup :=
  hnd.sublist (dictErase_keys_sublist k l)

theorem dictGet_dictUpdate_self (k : String) (f : Connection → Connection)
    (l : Pool) : dictGet k (dictUpdate k f l) = (dictGet k l).map f := by
  induction l with
  | nil => rfl
  | cons p ps ih =>
      by_cases h : p.1 = k <;> simp [dictUpdate, dictGet, h, ih]

theorem dictGet_dictUpdate_ne (w k : String) (f : Connection → Connection)
    (l : Pool) (hne : w ≠ k) :
    dictGet w (dictUpdate k f l) = dictGet w l := by
  induction l with
  | nil => rfl
  | cons p ps ih =>
      by_cases h : p.1 = k
      · simp [dictUpdate, dictGet, h, Ne.symm hne]
      · by_cases h2 : p.1 = w <;>
          simp [dictUpdate, dictGet, h, h2, hne, Ne.symm hne, ih]

theorem dictUpdate_keys (k : String) (f : Connection → Connection) (l : Pool) :
    (dictUpdate k f l).map Prod.fst = l.map Prod.fst := by
  induction l with
  | nil => rfl
  | cons p ps ih =>
      by_cases h : p.1 = k <;> simp [dictUpdate, h, ih]

theorem values_map_ws_id (l : Pool) (hkey : ∀ p ∈ l, p.2.ws_id = p.1) :
    (l.map Prod.snd).map Connection.ws_id = l.map Prod.fst := by
  induction l with
  | nil => rfl
  | cons p ps ih =>
      simp only [List.map_cons, List.cons.injEq]
      exact ⟨hkey p (by simp), ih (fun q hq => hkey q (by simp [hq]))⟩

theorem dictGet_of_mem_values (l : Pool) (c : Connection)
    (hnd : (l.map Prod.fst).Nodup) (hkey : ∀ p ∈ l, p.2.ws_id = p.1)
    (hc : c ∈ l.map Prod.snd) : dictGet c.ws_id l = some c := by
  induction l with
  | nil => simp at hc
  | cons p ps ih =>
      simp only [List.map_cons, List.nodup_cons] at hnd
      simp only [List.map_cons, List.mem_cons] at hc
      rcases hc with hc | hc
      · subst hc
        simp [dictGet, hkey p (by simp)]
      · have hne : ¬ p.1 = c.ws_id := by
          intro h
          apply hnd.1
          rw [← values_map_ws_id ps (fun q hq => hkey q (by simp [hq]))]
          exact h ▸ List.mem_map_of_mem Connection.ws_id hc
        simpa [dictGet, hne] using
          ih hnd.2 (fun q hq => hkey q (by simp [hq])) hc

/-! ### Effect lemmas for single registry operations -/

theorem remove_pool_get_ne (v w : String) (now : Int) (s : State) (hne : v ≠ w) :
    dictGet v (ConnectionPool.remove w now s).2.pool = dictGet v s.pool := by
  cases hw : dictGet w s.pool <;>
    simp [ConnectionPool.remove, hw, dictGet_dictErase_ne v w _ hne]

theorem remove_pool_get_self (w : String) (now : Int) (s : State)
    (hnd : (s.pool.map Prod.fst).Nodup) :
    dictGet w (ConnectionPool.remove w now s).2.pool = none := by
  cases hw : dictGet w s.pool
  · simp [ConnectionPool.remove, hw]
  · simp [ConnectionPool.remove, hw, dictGet_dictErase_self w _ hnd]

theorem remove_pool_keys_nodup (w : String) (now : Int) (s : State)
    (hnd : (s.pool.map Prod.fst).Nodup) :
    (((ConnectionPool.remove w now s).2.pool).map Prod.fst).Nodup := by
  cases hw : dictGet w s.pool <;>
    simp [ConnectionPool.remove, hw, hnd, dictErase_keys_nodup w _ hnd]

theorem incr_get_self (w : String) (s : State) :
    dictGet w (ConnectionPool.increment_message_count w s).pool =
      (dictGet w s.pool).map
        (fun c => { c with message_count := c.message_count + 1 }) := by
  cases hw : dictGet w s.pool <;>
    simp [ConnectionPool.increment_message_count, hw, dictGet_dictUpdate_self]

theorem incr_get_ne (v w : String) (s : State) (hne : v ≠ w) :
    dictGet v (ConnectionPool.increment_message_count w s).pool =
      dictGet v s.pool := by
  cases hw : dictGet w s.pool <;>
    simp [ConnectionPool.increment_message_count, hw,
      dictGet_dictUpdate_ne v w _ _ hne]

theorem incr_msgRows (w : String) (s : State) :
    (ConnectionPool.increment_message_count w s).msgRows = s.msgRows := by
  cases hw : dictGet w s.pool <;>
    simp [ConnectionPool.increment_message_count, hw]

theorem incr_nextMsgRowId (w : String) (s : State) :
    (ConnectionPool.increment_message_count w s).nextMsgRowId = s.nextMsgRowId := by
  cases hw : dictGet w s.pool <;>
    simp [ConnectionPool.increment_message_count, hw]

theorem incr_nextMsgId (w : String) (s : State) :
    (ConnectionPool.increment_message_count w s).nextMsgId = s.nextMsgId := by
  cases hw : dictGet w s.pool <;>
    simp [ConnectionPool.increment_message_count, hw]

/-! ### Broadcast loop lemmas -/

theorem broadcastLoop_fst (mt : String) (sid : Option String) (content : String)
    (now : Int) :
    ∀ (ts : List Connection) (s : State),
      (broadcastLoop mt sid content now ts s).1 = ts.map Connection.ws_id
  | [], _ => rfl
  | c :: cs, s => by
      simp [broadcastLoop, broadcastLoop_fst mt sid content now cs]

theorem broadcastLoop_msgRows (mt : String) (sid : Option String)
    (content : String) (now : Int) :
    ∀ (ts : List Connection) (s : State),
      (broadcastLoop mt sid content now ts s).2.msgRows =
        s.msgRows ++ mkRows mt sid content now ts s.nextMsgRowId s.nextMsgId
  | [], _ => by simp [broadcastLoop, mkRows]
  | c :: cs, s => by
      simp [broadcastLoop, broadcastLoop_msgRows mt sid content now cs, mkRows,
        incr_msgRows, incr_nextMsgRowId, incr_nextMsgId]

theorem mkRows_length (mt : String) (sid : Option String) (content : String)
    (now : Int) :
    ∀ (ts : List Connection) (rid mid : Nat),
      (mkRows mt sid content now ts rid mid).length = ts.length
  | [], _, _ => rfl
  | _ :: cs, rid, mid => by
      simp [mkRows, mkRows_length mt sid content now cs (rid + 1) (mid + 1)]

theorem mkRows_map_rd (mt : String) (sid : Option String) (content : String)
    (now : Int) :
    ∀ (ts : List Connection) (rid mid : Nat),
      (mkRows mt sid content now ts rid mid).map
          (fun r => (r.recipient_id, r.delivered)) =
        ts.map (fun c => (some c.ws_id, true))
  | [], _, _ => rfl
  | _ :: cs, rid, mid => by
      simp [mkRows, mkRows_map_rd mt sid content now cs (rid + 1) (mid + 1)]

theorem broadcastLoop_get (mt : String) (sid : Option String) (content : String)
    (now : Int) :
    ∀ (ts : List Connection) (s : State),
      (ts.map Connection.ws_id).Nodup → ∀ w : String,
      dictGet w (broadcastLoop mt sid content now ts s).2.pool =
        if w ∈ ts.map Connection.ws_id then
          (dictGet w s.pool).map
            (fun c => { c with message_count := c.message_count + 1 })
        else dictGet w s.pool
  | [], _, _, _ => by simp [broadcastLoop]
  | c :: cs, s, hnd, w => by
      simp only [List.map_cons, List.nodup_cons] at hnd
      have ih := broadcastLoop_get mt sid content now cs
        (ConnectionPool.increment_message_count c.ws_id
          { s with
            msgRows := s.msgRows ++
              [{ id := s.nextMsgRowId, msg_id := s.nextMsgId, msg_type := mt
               , sender_id := sid, recipient_id := some c.ws_id
               , content := content, sent_at := now, delivered := true }],
            nextMsgRowId := s.nextMsgRowId + 1,
            nextMsgId := s.nextMsgId + 1 })
        hnd.2 w
      by_cases hw : w = c.ws_id
      · subst hw
        simp only [broadcastLoop]
        simp only [ih, if_neg hnd.1]
        simp [incr_get_self, List.mem_cons]
      · by_cases hmem : w ∈ cs.map Connection.ws_id
        · simp only [broadcastLoop]
          simp only [ih, if_pos hmem]
          simp [incr_get_ne w c.ws_id _ hw, List.mem_cons, hmem, hw]
        · simp only [broadcastLoop]
          simp only [ih, if_neg hmem]
          simp [incr_get_ne w c.ws_id _ hw, List.mem_cons, hmem, hw]

/-! ### Heartbeat sweep lemmas -/

theorem hbLoop_active (T now : Int) :
    ∀ (ts : List Connection) (s : State),
      (hbLoop T now ts s).1 =
        (ts.filter (fun c => ! staleAt T now c)).map Connection.ws_id
  | [], _ => rfl
  | c :: cs, s => by
      by_cases h : staleAt T now c <;>
        simp [hbLoop, h, hbLoop_active T now cs]

theorem hbLoop_timedOut (T now : Int) :
    ∀ (ts : List Connection) (s : State),
      (hbLoop T now ts s).2.1 =
        (ts.filter (staleAt T now)).map Connection.ws_id
  | [], _ => rfl
  | c :: cs, s => by
      by_cases h : staleAt T now c <;>
        simp [hbLoop, h, hbLoop_timedOut T now cs]

theorem hbLoop_get_none (T now : Int) :
    ∀ (ts : List Connection) (s : State) (w : String),
      dictGet w s.pool = none →
      dictGet w (hbLoop T now ts s).2.2.pool = none
  | [], _, _, h => h
  | c :: cs, s, w, h => by
      by_cases hst : staleAt T now c
      · have h1 : dictGet w (ConnectionPool.remove c.ws_id now s).2.pool = none := by
          by_cases hcw : c.ws_id = w
          · subst hcw
            simp [ConnectionPool.remove, h]
          · rw [remove_pool_get_ne w c.ws_id now s (fun h' => hcw h'.symm)]
            exact h
        simpa [hbLoop, hst] using hbLoop_get_none T now cs _ w h1
      · simpa [hbLoop, hst] using hbLoop_get_none T now cs s w h

theorem hbLoop_get_untouched (T now : Int) :
    ∀ (ts : List Connection) (s : State) (w : String),
      w ∉ (ts.filter (staleAt T now)).map Connection.ws_id →
      dictGet w (hbLoop T now ts s).2.2.pool = dictGet w s.pool
  | [], _, _, _ => rfl
  | c :: cs, s, w, h => by
      by_cases hst : staleAt T now c
      · have hw : w ≠ c.ws_id := by
          intro hw
          exact h (by simp [hst, hw])
        have h2 : w ∉ (cs.filter (staleAt T now)).map Connection.ws_id := by
          intro hmem
          exact h (by simp [hst, hmem])
        have := hbLoop_get_untouched T now cs (ConnectionPool.remove c.ws_id now s).2 w h2
        simpa [hbLoop, hst, remove_pool_get_ne w c.ws_id now s hw] using this
      · have h2 : w ∉ (cs.filter (staleAt T now)).map Connection.ws_id := by
          intro hmem
          exact h (by simp [hst, hmem])
        simpa [hbLoop, hst] using hbLoop_get_untouched T now cs s w h2

theorem hbLoop_get_stale (T now : Int) :
    ∀ (ts : List Connection) (s : State) (w : String),
      (s.pool.map Prod.fst).Nodup →
      w ∈ (ts.filter (staleAt T now)).map Connection.ws_id →
      dictGet w (hbLoop T now ts s).2.2.pool = none
  | [], _, _, _, h => by simp at h
  | c :: cs, s, w, hnd, h => by
      by_cases hst : staleAt T now c
      · by_cases hcw : c.ws_id = w
        · have h1 : dictGet w (ConnectionPool.remove c.ws_id now s).2.pool = none := by
            rw [hcw]
            exact remove_pool_get_self w now s hnd
          simpa [hbLoop, hst] using hbLoop_get_none T now cs _ w h1
        · have h2 : w ∈ (cs.filter (staleAt T now)).map Connection.ws_id := by
            rcases (by simpa [hst] using h :
              w = c.ws_id ∨ w ∈ (cs.filter (staleAt T now)).map Connection.ws_id) with
              h3 | h3
            · exact absurd h3.symm hcw
            · exact h3
          simpa [hbLoop, hst] using hbLoop_get_stale T now cs _ w
            (remove_pool_keys_nodup c.ws_id now s hnd) h2
      · have h2 : w ∈ (cs.filter (staleAt T now)).map Connection.ws_id := by
          simpa [hst] using h
        simpa [hbLoop, hst] using hbLoop_get_stale T now cs s w hnd h2

/-- Classification core of the heartbeat sweep: a registry member is
reported (and evicted) according to `staleAt`, shared by the timeout and
malformed-timestamp theorems. -/
theorem hb_classify (T now : Int) (s : State) (c : Connection)
    (hnd : (s.pool.map Prod.fst).Nodup)
    (hkey : ∀ p ∈ s.pool, p.2.ws_id = p.1)
    (hc : c ∈ ConnectionPool.get_all s) :
    (staleAt T now c = true →
      c.ws_id ∈ (heartbeat_check T now s).2.1 ∧
      c.ws_id ∉ (heartbeat_check T now s).1 ∧
      ConnectionPool.get c.ws_id (heartbeat_check T now s).2.2 = none) ∧
    (staleAt T now c = false →
      c.ws_id ∈ (heartbeat_check T now s).1 ∧
      c.ws_id ∉ (heartbeat_check T now s).2.1 ∧
      ConnectionPool.get c.ws_id (heartbeat_check T now s).2.2 = some c) := by
  have hvn : ((ConnectionPool.get_all s).map Connection.ws_id).Nodup := by
    rw [ConnectionPool.get_all, values_map_ws_id s.pool hkey]
    exact hnd
  have hinj := List.inj_on_of_nodup_map hvn
  constructor
  · intro hst
    refine ⟨?_, ?_, ?_⟩
    · rw [heartbeat_check, hbLoop_timedOut]
      exact List.mem_map_of_mem Connection.ws_id (List.mem_filter.mpr ⟨hc, hst⟩)
    · rw [heartbeat_check, hbLoop_active]
      intro hmem
      rcases List.mem_map.mp hmem with ⟨c', hc', hcw⟩
      have hc'mem := List.mem_of_mem_filter hc'
      have : c' = c := hinj hc'mem hc hcw
      subst this
      have := (List.mem_filter.mp hc').2
      simp [hst] at this
    · rw [heartbeat_check, ConnectionPool.get]
      exact hbLoop_get_stale T now _ s c.ws_id hnd
        (List.mem_map_of_mem Connection.ws_id (List.mem_filter.mpr ⟨hc, hst⟩))
  · intro hst
    refine ⟨?_, ?_, ?_⟩
    · rw [heartbeat_check, hbLoop_active]
      exact List.mem_map_of_mem Connection.ws_id
        (List.mem_filter.mpr ⟨hc, by simp [hst]⟩)
    · rw [heartbeat_check, hbLoop_timedOut]
      intro hmem
      rcases List.mem_map.mp hmem with ⟨c', hc', hcw⟩
      have hc'mem := List.mem_of_mem_filter hc'
      have : c' = c := hinj hc'mem hc hcw
      subst this
      have := (List.mem_filter.mp hc').2
      simp [hst] at this
    · have hnst : c.ws_id ∉
          (((ConnectionPool.get_all s).filter (staleAt T now)).map Connection.ws_id) := by
        intro hmem
        rcases List.mem_map.mp hmem with ⟨c', hc', hcw⟩
        have hc'mem := List.mem_of_mem_filter hc'
        have : c' = c := hinj hc'mem hc hcw
        subst this
        have := (List.mem_filter.mp hc').2
        simp [hst] at this
      rw [heartbeat_check, ConnectionPool.get,
        hbLoop_get_untouched T now _ s c.ws_id hnst]
      exact dictGet_of_mem_values s.pool c hnd hkey hc

/-! ### Registry add/remove trace lemmas -/

theorem add_fst (c : Connection) (s : State) :
    (ConnectionPool.add c s).1 = { c with db_id := some s.nextConnId } := rfl

theorem add_get_self (c : Connection) (s : State) :
    ConnectionPool.get c.ws_id (ConnectionPool.add c s).2 =
      some (ConnectionPool.add c s).1 := by
  simp [ConnectionPool.get, ConnectionPool.add, dictGet_dictInsert_self]

theorem add_get_ne (v : String) (c : Connection) (s : State)
    (hne : v ≠ c.ws_id) :
    ConnectionPool.get v (ConnectionPool.add c s).2 = ConnectionPool.get v s := by
  simp [ConnectionPool.get, ConnectionPool.add, dictGet_dictInsert_ne v _ _ _ hne]

theorem applyRegOp_get_ne (op : RegOp) (w : String) (s : State)
    (hne : op.target ≠ w) :
    ConnectionPool.get w (applyRegOp op s) = ConnectionPool.get w s := by
  cases op with
  | addOp c => exact add_get_ne w c s (fun h => hne h.symm)
  | removeOp v now =>
      exact remove_pool_get_ne w v now s (fun h => hne h.symm)

theorem applyRegOps_get (ops : List RegOp) (w : String) (s : State)
    (h : ∀ op ∈ ops, op.target ≠ w) :
    ConnectionPool.get w (applyRegOps ops s) = ConnectionPool.get w s := by
  induction ops generalizing s with
  | nil => rfl
  | cons op rest ih =>
      rw [applyRegOps, List.foldl_cons]
      rw [show List.foldl (fun s op => applyRegOp op s) (applyRegOp op s) rest =
        applyRegOps rest (applyRegOp op s) from rfl]
      rw [ih (applyRegOp op s) (fun o ho => h o (by simp [ho]))]
      exact applyRegOp_get_ne op w s (h op (by simp))

/-! ### Agent histogram lemmas -/

theorem agentCount_bumpAgent (a b : String) (m : List (String × Nat)) :
    agentCount a (bumpAgent b m) =
      agentCount a m + (if b = a then 1 else 0) := by
  induction m with
  | nil => by_cases h : b = a <;> simp [bumpAgent, agentCount, h]
  | cons p ps ih =>
      by_cases h : p.1 = b
      · by_cases h2 : b = a
        · simp [bumpAgent, agentCount, h, h2, h.trans h2]
        · have hp1a : ¬ p.1 = a := fun hh => h2 (h.symm.trans hh)
          simp [bumpAgent, agentCount, h, h2, hp1a]
      · by_cases h2 : p.1 = a
        · have hba : ¬ b = a := fun hh => h (h2.trans hh.symm)
          simp [bumpAgent, agentCount, h, h2, hba, Ne.symm hba]
        · simp [bumpAgent, agentCount, h, h2, ih]

theorem agentCount_foldl (a : String) :
    ∀ (cs : List Connection) (m : List (String × Nat)),
      agentCount a (cs.foldl (fun m c => bumpAgent c.agent m) m) =
        agentCount a m + (cs.filter (fun c => c.agent == a)).length
  | [], m => by simp
  | c :: cs, m => by
      rw [List.foldl_cons, agentCount_foldl a cs (bumpAgent c.agent m),
        agentCount_bumpAgent a c.agent m]
      by_cases h : c.agent = a
      · simp [h]
        omega
      · simp [h]

/-! ## Claim theorems -/

/-- C4: for every `ws_id` with no active entry in the registry,
`send_message` returns the absent-indicator (`none`) and leaves the
whole state unchanged: no message row is persisted and no connection's
`message_count` changes. -/
theorem send_message_absent_noop (w content mt : String) (sid : Option String)
    (now : Int) (s : State) (hp : ConnectionPool.get w s = none) :
    send_message w content mt sid now s = (none, s) := by
  simp [send_message, hp]

/-- Witness for C4 at a concrete unknown id. -/
theorem send_message_absent_noop_witness :
    send_message "ghost" "x" "data" none 0 initState = (none, initState) :=
  send_message_absent_noop "ghost" "x" "data" none 0 initState (by decide)

/-- C7: `remove` on an id absent from the registry returns the failure
indicator with no side effect, and repeated removes keep failing with no
side effects. -/
theorem remove_absent_idempotent (w : String) (now now2 : Int) (s : State)
    (hp : ConnectionPool.get w s = none) :
    remove_connection w now s = (false, s) ∧
    remove_connection w now2 (remove_connection w now s).2 = (false, s) := by
  have h1 : ∀ n : Int, remove_connection w n s = (false, s) := fun n => by
    simp [remove_connection, ConnectionPool.remove,
      show dictGet w s.pool = none from hp]
  exact ⟨h1 now, by rw [h1 now]; exact h1 now2⟩

/-- Witness for C7 at a concrete never-added id. -/
theorem remove_absent_idempotent_witness :
    remove_connection "ghost" 0 initState = (false, initState) ∧
    remove_connection "ghost" 1 (remove_connection "ghost" 0 initState).2 =
      (false, initState) :=
  remove_absent_idempotent "ghost" 0 1 initState (by decide)

/-- C6: `add` stores the connection (with `db_id` assigned) and `get`
returns it; it keeps returning it across any registry operations that do
not remove or re-add that `ws_id`; and a repeat `add` with the same
`ws_id` succeeds and replaces the record (last-writer-wins): `get` then
returns the newly stored connection. -/
theorem add_get_until (s : State) (c : Connection) (ops : List RegOp)
    (h : ∀ op ∈ ops, op.target ≠ c.ws_id) :
    (ConnectionPool.add c s).1 = { c with db_id := some s.nextConnId } ∧
    ConnectionPool.get c.ws_id (ConnectionPool.add c s).2 =
      some (ConnectionPool.add c s).1 ∧
    ConnectionPool.get c.ws_id (applyRegOps ops (ConnectionPool.add c s).2) =
      some (ConnectionPool.add c s).1 ∧
    (∀ c2 : Connection, c2.ws_id = c.ws_id →
      ConnectionPool.get c.ws_id
          (ConnectionPool.add c2 (applyRegOps ops (ConnectionPool.add c s).2)).2 =
        some (ConnectionPool.add c2
          (applyRegOps ops (ConnectionPool.add c s).2)).1) := by
  refine ⟨add_fst c s, add_get_self c s, ?_, ?_⟩
  · rw [applyRegOps_get ops c.ws_id _ h]
    exact add_get_self c s
  · intro c2 h2
    rw [← h2]
    exact add_get_self c2 _

/-- Witness for C6: a fresh add survives an unrelated add and an
unrelated remove, and a re-add of the same id replaces it. -/
theorem add_get_until_witness :
    ConnectionPool.get "w"
        (applyRegOps [RegOp.addOp cOther, RegOp.removeOp "gone" 5]
          (ConnectionPool.add cW initState).2) =
      some { cW with db_id := some 1 } := by
  have h := add_get_until initState cW
    [RegOp.addOp cOther, RegOp.removeOp "gone" 5] (by decide)
  exact h.2.2.1

/-- C10: `update_heartbeat` on a registered id returns the success
indicator and changes only that connection's `last_heartbeat` (in memory
and in its store row) plus appending one heartbeat-log row: its other
fields, every other connection, the message store, the id counters, and
the set of registered `ws_id`s are all unchanged. -/
theorem update_heartbeat_frame (w : String) (lat : Option Int) (now : Int)
    (s : State) (c : Connection) (hp : ConnectionPool.get w s = some c) :
    (ConnectionPool.update_heartbeat w lat now s).1 = true ∧
    ConnectionPool.get w (ConnectionPool.update_heartbeat w lat now s).2 =
      some { c with last_heartbeat := .valid now } ∧
    (∀ v, v ≠ w →
      ConnectionPool.get v (ConnectionPool.update_heartbeat w lat now s).2 =
        ConnectionPool.get v s) ∧
    (ConnectionPool.update_heartbeat w lat now s).2.pool.map Prod.fst =
      s.pool.map Prod.fst ∧
    (ConnectionPool.update_heartbeat w lat now s).2.hbRows =
      s.hbRows ++ [⟨w, now, lat⟩] ∧
    (ConnectionPool.update_heartbeat w lat now s).2.msgRows = s.msgRows ∧
    (ConnectionPool.update_heartbeat w lat now s).2.connRows =
      s.connRows.map (fun r =>
        if r.ws_id = w then { r with last_heartbeat := .valid now } else r) ∧
    (ConnectionPool.update_heartbeat w lat now s).2.nextConnId = s.nextConnId ∧
    (ConnectionPool.update_heartbeat w lat now s).2.nextMsgRowId = s.nextMsgRowId ∧
    (ConnectionPool.update_heartbeat w lat now s).2.nextMsgId = s.nextMsgId := by
  have hd : dictGet w s.pool = some c := hp
  refine ⟨?_, ?_, ?_, ?_, ?_, ?_, ?_, ?_, ?_, ?_⟩ <;>
    simp [ConnectionPool.update_heartbeat, hd, ConnectionPool.get,
      dictGet_dictUpdate_self, dictUpdate_keys]
  intro v hv
  simp [dictGet_dictUpdate_ne v w _ _ hv]

/-- Witness for C10 on the one-connection state. -/
theorem update_heartbeat_frame_witness :
    ConnectionPool.get "w" (ConnectionPool.update_heartbeat "w" (some 7) 4 stateA).2 =
      some { ws_id := "w", agent := "alice", metadata := "m"
           , connected_at := .valid 0, last_heartbeat := .valid 4
           , status := "active", message_count := 0, db_id := some 1 } ∧
    (ConnectionPool.update_heartbeat "w" (some 7) 4 stateA).2.hbRows =
      [⟨"w", 4, some 7⟩] := by
  have h := update_heartbeat_frame "w" (some 7) 4 stateA
    { ws_id := "w", agent := "alice", metadata := "m", connected_at := .valid 0
    , last_heartbeat := .valid 0, status := "active", message_count := 0
    , db_id := some 1 } (by decide)
  exact ⟨h.2.1, by rw [h.2.2.2.2.1]; decide⟩

/-- C1 counterexample: connect `"w"` at time 0, disconnect at time 1
(which does leave a disconnected row), reconnect at time 2.  The claim
says the old disconnected row remains in the store, but after the
reconnect the store holds exactly one row for `"w"` and no disconnected
row: the `INSERT OR REPLACE` deleted it. -/
theorem reconnect_replaces_row_cex :
    (remove_connection "w" 1 stateA).2.connRows.filter
        (fun r => r.status == "disconnected") ≠ [] ∧
    stateC.connRows.filter (fun r => r.status == "disconnected") = [] ∧
    stateC.connRows.length = 1 := by decide

/-- C1 amended: disconnecting (`remove`) only soft-deletes — the row
count is preserved and the row for the id is marked `disconnected` with
a disconnect timestamp — but a later `add` with the same `ws_id` does
not retain the old disconnected row: it replaces it, leaving exactly one
(fresh, `disconnected_at = none`, newly numbered) row for that id. -/
theorem soft_delete_then_replacing_add (s : State) (w : String)
    (c0 c : Connection) (now : Int)
    (hp : ConnectionPool.get w s = some c0) (hc : c.ws_id = w) :
    (ConnectionPool.remove w now s).1 = true ∧
    (ConnectionPool.remove w now s).2.connRows.length = s.connRows.length ∧
    (∀ r ∈ (ConnectionPool.remove w now s).2.connRows, r.ws_id = w →
      r.status = "disconnected" ∧ r.disconnected_at = some now) ∧
    (ConnectionPool.add c (ConnectionPool.remove w now s).2).2.connRows.filter
        (fun r => r.ws_id == w) =
      [{ id := (ConnectionPool.remove w now s).2.nextConnId, ws_id := c.ws_id
       , agent := c.agent, metadata := c.metadata
       , connected_at := c.connected_at, last_heartbeat := c.last_heartbeat
       , status := c.status, message_count := c.message_count
       , disconnected_at := none }] := by
  have hd : dictGet w s.pool = some c0 := hp
  refine ⟨?_, ?_, ?_, ?_⟩
  · simp [ConnectionPool.remove, hd]
  · simp [ConnectionPool.remove, hd]
  · intro r hr hrw
    simp only [ConnectionPool.remove, hd] at hr
    rcases List.mem_map.mp hr with ⟨r0, _, hr0⟩
    by_cases h0 : r0.ws_id = w
    · rw [← hr0]
      simp [h0]
    · rw [← hr0] at hrw
      simp [h0] at hrw
  · rw [ConnectionPool.add]
    simp only [List.filter_append, List.filter_filter]
    rw [List.filter_eq_nil_iff.mpr (fun r _ => by
      by_cases h : r.ws_id = w <;> simp [h, hc])]
    simp [hc]

/-- Witness for C1's amended theorem on the concrete reconnect run. -/
theorem soft_delete_then_replacing_add_witness :
    (ConnectionPool.remove "w" 1 stateA).1 = true ∧
    (ConnectionPool.add
        { ws_id := "w", agent := "alice", metadata := "m"
        , connected_at := .valid 2, last_heartbeat := .valid 2
        , status := "active", message_count := 0, db_id := none }
        (ConnectionPool.remove "w" 1 stateA).2).2.connRows.filter
      (fun r => r.ws_id == "w") =
      [{ id := 2, ws_id := "w", agent := "alice", metadata := "m"
       , connected_at := .valid 2, last_heartbeat := .valid 2
       , status := "active", message_count := 0, disconnected_at := none }] := by
  have h := soft_delete_then_replacing_add stateA "w"
    { ws_id := "w", agent := "alice", metadata := "m", connected_at := .valid 0
    , last_heartbeat := .valid 0, status := "active", message_count := 0
    , db_id := some 1 }
    { ws_id := "w", agent := "alice", metadata := "m", connected_at := .valid 2
    , last_heartbeat := .valid 2, status := "active", message_count := 0
    , db_id := none } 1 (by decide) rfl
  refine ⟨h.1, ?_⟩
  rw [h.2.2.2]
  decide

/-- C5 counterexample: with a negative timeout the malformed-heartbeat
connection is classified timed-out and evicted, so "for every timeout
value, it is never classified as timed-out" fails at `timeout = -1`. -/
theorem heartbeat_malformed_negative_timeout_cex :
    parseTS connM.last_heartbeat = none ∧
    (heartbeat_check (-1) 0 stateM).2.1 = ["m"] ∧
    ConnectionPool.get "m" (heartbeat_check (-1) 0 stateM).2.2 = none := by
  decide

/-- C5 amended: a malformed stored heartbeat is treated as the current
time, so for every nonnegative timeout the connection is reported
active, never timed-out, and stays reachable in the registry; no parse
failure escapes (`heartbeat_check` is total). -/
theorem heartbeat_malformed_fail_open (T now : Int) (s : State) (c : Connection)
    (hnd : (s.pool.map Prod.fst).Nodup)
    (hkey : ∀ p ∈ s.pool, p.2.ws_id = p.1)
    (hc : c ∈ ConnectionPool.get_all s)
    (hm : parseTS c.last_heartbeat = none) (hT : 0 ≤ T) :
    c.ws_id ∈ (heartbeat_check T now s).1 ∧
    c.ws_id ∉ (heartbeat_check T now s).2.1 ∧
    ConnectionPool.get c.ws_id (heartbeat_check T now s).2.2 = some c := by
  have hst : staleAt T now c = false := by
    simp only [staleAt, hm]
    simp only [decide_eq_false_iff_not, not_lt]
    omega
  exact (hb_classify T now s c hnd hkey hc).2 hst

/-- Witness for C5's amended theorem: the malformed-heartbeat connection
survives a sweep with timeout 5. -/
theorem heartbeat_malformed_fail_open_witness :
    "m" ∈ (heartbeat_check 5 0 stateM).1 ∧
    "m" ∉ (heartbeat_check 5 0 stateM).2.1 ∧
    ConnectionPool.get "m" (heartbeat_check 5 0 stateM).2.2 = some connM := by
  have h := heartbeat_malformed_fail_open 5 0 stateM connM
    (by decide) (by decide) (by decide) (by decide) (by decide)
  exact h

/-- C3: the sweep classifies each registered connection by its parsed
`last_heartbeat` against `now - timeout` with a strict comparison: if
strictly older it is evicted, reported timed-out, and `get` no longer
reaches it; otherwise it is reported active and `get` still returns it
unchanged; both lists are returned. -/
theorem heartbeat_classification (T now t : Int) (s : State) (c : Connection)
    (hnd : (s.pool.map Prod.fst).Nodup)
    (hkey : ∀ p ∈ s.pool, p.2.ws_id = p.1)
    (hc : c ∈ ConnectionPool.get_all s)
    (hp : parseTS c.last_heartbeat = some t) :
    (t < now - T →
      c.ws_id ∈ (heartbeat_check T now s).2.1 ∧
      c.ws_id ∉ (heartbeat_check T now s).1 ∧
      ConnectionPool.get c.ws_id (heartbeat_check T now s).2.2 = none) ∧
    (¬ t < now - T →
      c.ws_id ∈ (heartbeat_check T now s).1 ∧
      c.ws_id ∉ (heartbeat_check T now s).2.1 ∧
      ConnectionPool.get c.ws_id (heartbeat_check T now s).2.2 = some c) := by
  have h := hb_classify T now s c hnd hkey hc
  constructor
  · intro hlt
    exact h.1 (by simp [staleAt, hp, hlt])
  · intro hlt
    exact h.2 (by simp [staleAt, hp, hlt])

/-- Witness for C3: with timeout 30 at time 0, the connection whose
heartbeat was at -100 is timed out and unreachable, the one at 0 stays
active and reachable. -/
theorem heartbeat_classification_witness :
    ("old" ∈ (heartbeat_check 30 0 stateStale).2.1 ∧
      ConnectionPool.get "old" (heartbeat_check 30 0 stateStale).2.2 = none) ∧
    ("live" ∈ (heartbeat_check 30 0 stateStale).1 ∧
      ConnectionPool.get "live" (heartbeat_check 30 0 stateStale).2.2 =
        some connLive) := by
  have hOld := heartbeat_classification 30 0 (-100) stateStale connOld
    (by decide) (by decide) (by decide) (by decide)
  have hLive := heartbeat_classification 30 0 0 stateStale connLive
    (by decide) (by decide) (by decide) (by decide)
  have h1 := hOld.1 (by decide)
  have h2 := hLive.2 (by decide)
  exact ⟨⟨h1.1, h1.2.2⟩, ⟨h2.1, h2.2.2⟩⟩

/-- C2: `broadcast` returns exactly the ids of the targeted (registry)
connections — all of them with no filter, exactly the ones satisfying
the predicate with a filter; it appends exactly one message row per
target, each with `recipient_id` the target's id and `delivered=true`,
leaving prior rows untouched; and it increments exactly the targeted
connections' `message_count` by exactly 1, leaving every other
connection unchanged. -/
theorem broadcast_spec (fil : Option (Connection → Bool))
    (content mt : String) (sid : Option String) (now : Int) (s : State)
    (hnd : (s.pool.map Prod.fst).Nodup)
    (hkey : ∀ p ∈ s.pool, p.2.ws_id = p.1) :
    (broadcast fil content mt sid now s).1 =
      (broadcastTargets fil s).map Connection.ws_id ∧
    (broadcast fil content mt sid now s).2.msgRows.length =
      s.msgRows.length + (broadcast fil content mt sid now s).1.length ∧
    (broadcast fil content mt sid now s).2.msgRows.take s.msgRows.length =
      s.msgRows ∧
    ((broadcast fil content mt sid now s).2.msgRows.drop s.msgRows.length).map
        (fun r => (r.recipient_id, r.delivered)) =
      (broadcast fil content mt sid now s).1.map (fun w => (some w, true)) ∧
    (∀ w, dictGet w (broadcast fil content mt sid now s).2.pool =
      if w ∈ (broadcast fil content mt sid now s).1 then
        (dictGet w s.pool).map
          (fun c => { c with message_count := c.message_count + 1 })
      else dictGet w s.pool) := by
  have hvn : ((ConnectionPool.get_all s).map Connection.ws_id).Nodup := by
    rw [ConnectionPool.get_all, values_map_ws_id s.pool hkey]
    exact hnd
  have hids : ((broadcastTargets fil s).map Connection.ws_id).Nodup := by
    cases fil with
    | none => exact hvn
    | some f =>
        exact hvn.sublist
          (List.Sublist.map Connection.ws_id (List.filter_sublist _))
  have h1 : (broadcast fil content mt sid now s).1 =
      (broadcastTargets fil s).map Connection.ws_id :=
    broadcastLoop_fst mt sid content now (broadcastTargets fil s) s
  have hrows : (broadcast fil content mt sid now s).2.msgRows =
      s.msgRows ++ mkRows mt sid content now (broadcastTargets fil s)
        s.nextMsgRowId s.nextMsgId :=
    broadcastLoop_msgRows mt sid content now (broadcastTargets fil s) s
  refine ⟨h1, ?_, ?_, ?_, ?_⟩
  · rw [hrows, List.length_append, h1, List.length_map,
      mkRows_length mt sid content now]
  · rw [hrows, List.take_left]
  · rw [hrows, List.drop_left, h1, List.map_map,
      mkRows_map_rd mt sid content now]
    rfl
  · intro w
    rw [h1]
    exact broadcastLoop_get mt sid content now (broadcastTargets fil s) s hids w

/-- Witness for C2: broadcasting with an agent filter on the
three-connection scenario targets exactly alice's two connections and
bumps `"a1"`'s counter. -/
theorem broadcast_spec_witness :
    (broadcast (some (fun c => c.agent == "alice")) "hi" "broadcast" none 9
        stateAgents).1 = ["a1", "a2"] ∧
    dictGet "a1"
        (broadcast (some (fun c => c.agent == "alice")) "hi" "broadcast" none 9
          stateAgents).2.pool =
      (dictGet "a1" stateAgents.pool).map
        (fun c => { c with message_count := c.message_count + 1 }) := by
  have h := broadcast_spec (some (fun c => c.agent == "alice")) "hi" "broadcast"
    none 9 stateAgents (by decide) (by decide)
  have hm : "a1" ∈ (broadcast (some (fun c => c.agent == "alice")) "hi"
      "broadcast" none 9 stateAgents).1 := by
    rw [h.1]
    decide
  have h5 := h.2.2.2.2 "a1"
  rw [if_pos hm] at h5
  exact ⟨h.1.trans (by decide), h5⟩

/-- C8 counterexample: with the empty string as `ws_id`, Python's
`if ws_id:` is falsy, so the history query ignores the sender/recipient
restriction and returns system-wide rows — here all 3 rows to `"c1"`,
none of which has `""` as sender or recipient. -/
theorem message_history_empty_id_cex :
    (get_message_history (some "") 10 stateHist).length = 3 ∧
    (get_message_history (some "") 10 stateHist).all (msgInvolves "") = false := by
  decide

/-- C8 amended: for a nonempty `ws_id` the history contains only rows
where that id is sender or recipient, sorted newest-first by sent time,
capped at `limit`, and complete (a permutation of all matching rows)
whenever they fit in the cap; with no `ws_id` — or, diverging from the
claim, with the empty-string `ws_id` — the same holds for the
system-wide rows.  The query is read-only: it returns rows without
producing a new state. -/
theorem message_history_spec (w : String) (limit : Nat) (s : State)
    (hw : w ≠ "") :
    (∀ r ∈ get_message_history (some w) limit s, msgInvolves w r = true) ∧
    List.Sorted msgGE (get_message_history (some w) limit s) ∧
    (get_message_history (some w) limit s).length ≤ limit ∧
    ((s.msgRows.filter (msgInvolves w)).length ≤ limit →
      (get_message_history (some w) limit s).Perm
        (s.msgRows.filter (msgInvolves w))) ∧
    List.Sorted msgGE (get_message_history none limit s) ∧
    (get_message_history none limit s).length ≤ limit ∧
    (s.msgRows.length ≤ limit →
      (get_message_history none limit s).Perm s.msgRows) := by
  have ht : truthy (some w) = true := by simp [truthy, hw]
  have hsw : get_message_history (some w) limit s =
      ((s.msgRows.filter (msgInvolves w)).insertionSort msgGE).take limit := by
    simp [get_message_history, ht]
  have hsn : get_message_history none limit s =
      (s.msgRows.insertionSort msgGE).take limit := by
    simp [get_message_history, truthy]
  refine ⟨?_, ?_, ?_, ?_, ?_, ?_, ?_⟩
  · intro r hr
    rw [hsw] at hr
    have hr2 := List.mem_of_mem_take hr
    have hr3 := (List.perm_insertionSort msgGE _).mem_iff.mp hr2
    exact (List.mem_filter.mp hr3).2
  · rw [hsw]
    exact List.Pairwise.sublist (List.take_sublist _ _)
      (List.sorted_insertionSort msgGE _)
  · rw [hsw, List.length_take]
    exact min_le_left _ _
  · intro hlen
    rw [hsw]
    have hlen2 : ((s.msgRows.filter (msgInvolves w)).insertionSort
        msgGE).length ≤ limit := by
      rw [(List.perm_insertionSort msgGE _).length_eq]
      exact hlen
    rw [List.take_of_length_le hlen2]
    exact List.perm_insertionSort msgGE _
  · rw [hsn]
    exact List.Pairwise.sublist (List.take_sublist _ _)
      (List.sorted_insertionSort msgGE _)
  · rw [hsn, List.length_take]
    exact min_le_left _ _
  · intro hlen
    rw [hsn]
    have hlen2 : (s.msgRows.insertionSort msgGE).length ≤ limit := by
      rw [(List.perm_insertionSort msgGE _).length_eq]
      exact hlen
    rw [List.take_of_length_le hlen2]
    exact List.perm_insertionSort msgGE _

/-- Witness for C8: after three sends to `"c1"`, its history holds
exactly 3 rows, newest first. -/
theorem message_history_spec_witness :
    (get_message_history (some "c1") 10 stateHist).length = 3 ∧
    (get_message_history (some "c1") 10 stateHist).map (fun r => r.content) =
      ["m3", "m2", "m1"] ∧
    List.Sorted msgGE (get_message_history (some "c1") 10 stateHist) ∧
    (∀ r ∈ get_message_history (some "c1") 10 stateHist,
      msgInvolves "c1" r = true) := by
  have h := message_history_spec "c1" 10 stateHist (by decide)
  exact ⟨by decide, by decide, h.2.1, h.1⟩

/-- C9: `connection_stats` reports the active count straight from the
in-memory registry, the lifetime totals as the store's row counts, and
an agent histogram computed over the live active set: for every agent
name its reported count is exactly the number of registered connections
with that agent; on the alice/alice/bob scenario this yields
`{alice: 2, bob: 1}` with 3 active connections. -/
theorem connection_stats_spec (s : State) (a : String) :
    (connection_stats s).active_connections = ConnectionPool.count s ∧
    (connection_stats s).total_ever_connected = s.connRows.length ∧
    (connection_stats s).total_messages = s.msgRows.length ∧
    agentCount a (connection_stats s).agents =
      ((ConnectionPool.get_all s).filter (fun c => c.agent == a)).length ∧
    connection_stats stateAgents =
      { active_connections := 3, total_ever_connected := 3
      , total_messages := 0, agents := [("alice", 2), ("bob", 1)] } := by
  refine ⟨rfl, rfl, rfl, ?_, by decide⟩
  rw [connection_stats]
  simpa [agentCount] using agentCount_foldl a (ConnectionPool.get_all s) []

end WsManager
